import Mathlib

/-!
Verification of the TopLenderGuide rate backend: a shallow embedding of the
rate pipeline (`rate_updater.py`), the persistence layer (`database.py`) and
the per-lender history endpoint (`app.py`), with theorems checking the
specification's claims against the embedded code.

Modelling conventions:
* Python floats are modelled by `ℚ`; `round(v, 2)` by round-half-to-even on
  hundredths (`_round2`).
* ISO timestamps are modelled by `Timestamp` (a calendar day plus a
  finer-grained tick within the day); `date(ts)` is the `day` projection.
* The two SQL tables are lists of rows; SQL `ORDER BY` is insertion sort by
  the ordering key.
* Network fetches and the state file are modelled by explicit outcome values
  (`FredFetchOutcome`, `StateFile`) passed as inputs; `random.gauss` by an
  arbitrary rational delta argument.
-/

/-- An ISO-8601 UTC timestamp, abstracted as a calendar day plus a
sub-day tick; `date(recorded_at)` in the SQL is the `day` field. -/
structure Timestamp where
  day : ℕ
  tick : ℕ
deriving DecidableEq

/-- Content of the walk-state JSON file `last_rates.json`. -/
structure WalkState where
  rate_30yr : ℚ
  rate_15yr : ℚ
  rate_arm : ℚ
deriving DecidableEq

/-- One entry of the static `LENDER_SPREADS` table in `rate_updater.py`. -/
structure SpreadInfo where
  name : String
  spread_30 : ℚ
  spread_15 : ℚ
  spread_arm : ℚ
  min_credit : ℕ
  min_down : ℚ
deriving DecidableEq

/-- One per-lender rate dict produced by `_build_lender_rates`. -/
structure LenderRateRecord where
  lender_id : String
  lender_name : String
  rate_30yr : ℚ
  rate_15yr : ℚ
  rate_arm_5_1 : ℚ
  apr_30yr : ℚ
  min_credit : ℕ
  min_down_pct : ℚ
deriving DecidableEq

/-- A row of the `rates` ("latest snapshot") table. -/
structure RateRow where
  lender_id : String
  lender_name : String
  rate_30yr : ℚ
  rate_15yr : ℚ
  rate_arm_5_1 : ℚ
  apr_30yr : ℚ
  min_credit : ℕ
  min_down_pct : ℚ
  updated_at : Timestamp
deriving DecidableEq

/-- A row of the `rate_history` table. -/
structure HistoryRow where
  lender_id : String
  rate_30yr : ℚ
  rate_15yr : ℚ
  rate_arm_5_1 : ℚ
  apr_30yr : ℚ
  recorded_at : Timestamp
deriving DecidableEq

/-- The visible database: the `rates` table and the `rate_history` table. -/
structure DBState where
  rates : List RateRow
  rate_history : List HistoryRow
deriving DecidableEq

def emptyDB : DBState := ⟨[], []⟩

/-- The `value` field of one FRED observation: the non-numeric placeholder
`"."`, a string `float()` rejects, or a numeric string parsing to `v`. -/
inductive FredValue
  | placeholder
  | unparseable
  | num (v : ℚ)
deriving DecidableEq

/-- Outcome of one HTTP request to the FRED API for a series: `failure`
covers a missing `requests` library, an exception, a timeout or a non-2xx
status; `response obs` is a parsed JSON body with observation list `obs`. -/
inductive FredFetchOutcome
  | failure
  | response (obs : List FredValue)
deriving DecidableEq

/-- State of the walk-state file: absent, present but not valid JSON, or a
valid record. -/
inductive StateFile
  | absent
  | corrupt
  | valid (s : WalkState)
deriving DecidableEq

/-- Result of the `/api/rates/{lender_id}` endpoint: an HTTP error raised
via `HTTPException`, or the JSON payload. -/
inductive LenderRateResult
  | ok (lender_id : String) (history : List HistoryRow)
  | error (status : ℕ) (detail : String)
deriving DecidableEq

/-- Round-half-to-even to an integer, the tie-breaking Python 3 `round`
uses. -/
def roundHalfEven (q : ℚ) : ℤ :=
  if Int.fract q < 1/2 then ⌊q⌋
  else if 1/2 < Int.fract q then ⌊q⌋ + 1
  else if ⌊q⌋ % 2 = 0 then ⌊q⌋ else ⌊q⌋ + 1

/-- `_round2(v)` is `round(v, 2)`. -/
def _round2 (v : ℚ) : ℚ := (roundHalfEven (v * 100) : ℚ) / 100

/-- The static per-lender spread table, in Python dict insertion order. -/
def LENDER_SPREADS : List (String × SpreadInfo) :=
  [ ("rocket",    ⟨"Rocket Mortgage",           12/100,  10/100,   8/100, 580, 3⟩),
    ("loandepot", ⟨"LoanDepot",                 -5/100,  -4/100,  -6/100, 620, 7/2⟩),
    ("bofa",      ⟨"Bank of America",           19/100,  15/100,  14/100, 660, 3⟩),
    ("wells",     ⟨"Wells Fargo Home Mortgage", 26/100,  22/100,  20/100, 620, 3⟩),
    ("better",    ⟨"Better Mortgage",           -3/100,  -2/100, -10/100, 620, 5⟩),
    ("navyfed",   ⟨"Navy Federal Credit Union", -7/100,  -6/100, -12/100, 580, 0⟩) ]

def APR_SPREAD : ℚ := 24/100

/-- `_build_lender_rates`: apply per-lender spreads to the market base
rates, one record per spread-table entry, in table order. -/
def _build_lender_rates (base_30 base_15 base_arm : ℚ) : List LenderRateRecord :=
  LENDER_SPREADS.map fun p =>
    let r30 := _round2 (base_30 + p.2.spread_30)
    let r15 := _round2 (base_15 + p.2.spread_15)
    let rarm := _round2 (base_arm + p.2.spread_arm)
    ⟨p.1, p.2.name, r30, r15, rarm, _round2 (r30 + APR_SPREAD),
      p.2.min_credit, p.2.min_down⟩

/-- `_fetch_fred_series`: most recent observation of one series, `none` on
any failure, on an empty observation list, on the `"."` placeholder or on a
value `float()` cannot parse. -/
def _fetch_fred_series : FredFetchOutcome → Option ℚ
  | .failure => none
  | .response [] => none
  | .response (.placeholder :: _) => none
  | .response (.unparseable :: _) => none
  | .response (.num v :: _) => some v

/-- `_try_fred`: fetch the three series; the Python guard
`if r30 and r15 and rarm` accepts only three non-`None`, nonzero floats. -/
def _try_fred (o30 o15 oarm : FredFetchOutcome) : Option (ℚ × ℚ × ℚ) :=
  match _fetch_fred_series o30, _fetch_fred_series o15, _fetch_fred_series oarm with
  | some a, some b, some c => if a ≠ 0 ∧ b ≠ 0 ∧ c ≠ 0 then some (a, b, c) else none
  | _, _, _ => none

/-- `_load_state`: the file's record if it exists and parses, else the
bootstrap defaults. -/
def _load_state : StateFile → WalkState
  | .valid s => s
  | _ => ⟨674/100, 605/100, 598/100⟩

/-- `_simulate_rates`: random walk from the loaded state, correlated deltas
for 15yr (×0.90) and ARM (×0.75), each result rounded and clamped to its
band. `delta_30` stands for the `random.gauss(0, 0.03)` draw. -/
def _simulate_rates (file : StateFile) (delta_30 : ℚ) : ℚ × ℚ × ℚ :=
  let state := _load_state file
  let delta_15 := delta_30 * (9/10)
  let delta_arm := delta_30 * (3/4)
  ( max (11/2) (min (17/2) (_round2 (state.rate_30yr + delta_30))),
    max 5 (min 8 (_round2 (state.rate_15yr + delta_15))),
    max (19/4) (min (15/2) (_round2 (state.rate_arm + delta_arm))) )

/-- The base-rate resolution step of `fetch_latest_rates`: FRED result if
usable, else simulation. -/
def resolveBase (o30 o15 oarm : FredFetchOutcome) (file : StateFile)
    (delta_30 : ℚ) : ℚ × ℚ × ℚ :=
  match _try_fred o30 o15 oarm with
  | some r => r
  | none => _simulate_rates file delta_30

/-- `fetch_latest_rates`: resolve base rates, persist them via
`_save_state` (returned as the new file content), build lender records. -/
def fetch_latest_rates (o30 o15 oarm : FredFetchOutcome) (file : StateFile)
    (delta_30 : ℚ) : List LenderRateRecord × WalkState :=
  let r := resolveBase o30 o15 oarm file delta_30
  (_build_lender_rates r.1 r.2.1 r.2.2, ⟨r.1, r.2.1, r.2.2⟩)

/-! ## Persistence layer (`database.py`) -/

/-- The `rates` row written for record `r` with `updated_at = now`. -/
def toRateRow (r : LenderRateRecord) (now : Timestamp) : RateRow :=
  ⟨r.lender_id, r.lender_name, r.rate_30yr, r.rate_15yr, r.rate_arm_5_1,
    r.apr_30yr, r.min_credit, r.min_down_pct, now⟩

/-- The `rate_history` row written for record `r` with `recorded_at = now`. -/
def mkHist (r : LenderRateRecord) (now : Timestamp) : HistoryRow :=
  ⟨r.lender_id, r.rate_30yr, r.rate_15yr, r.rate_arm_5_1, r.apr_30yr, now⟩

/-- The row `ON CONFLICT (lender_id) DO UPDATE SET ...` leaves behind: both
backends' SET lists overwrite every column from the excluded row except the
key and `lender_name`, which the SET lists omit, so the pre-existing row's
name survives. -/
def mergeOnConflict (old row : RateRow) : RateRow :=
  ⟨old.lender_id, old.lender_name, row.rate_30yr, row.rate_15yr,
    row.rate_arm_5_1, row.apr_30yr, row.min_credit, row.min_down_pct,
    row.updated_at⟩

/-- The `INSERT ... ON CONFLICT(lender_id) DO UPDATE` statement on the
`rates` table: merge into the existing row for the lender (every column but
`lender_name` taken from the new row), else append the new row whole. -/
def upsertSnapshot (rates : List RateRow) (row : RateRow) : List RateRow :=
  if rates.any fun x => x.lender_id = row.lender_id then
    rates.map fun x =>
      if x.lender_id = row.lender_id then mergeOnConflict x row else x
  else rates ++ [row]

/-- The conditional `INSERT INTO rate_history ... WHERE NOT EXISTS`
statement: append only when no history row exists for the record's lender
on `now`'s calendar day. -/
def historyInsertStep (hist : List HistoryRow) (r : LenderRateRecord)
    (now : Timestamp) : List HistoryRow :=
  if hist.any fun h => h.lender_id = r.lender_id ∧ h.recorded_at.day = now.day
  then hist
  else hist ++ [mkHist r now]

/-- The two statements `upsert_rates` executes for one record of the batch. -/
inductive WriteCmd
  | snap (r : LenderRateRecord)
  | hist (r : LenderRateRecord)
deriving DecidableEq

def applyCmd (now : Timestamp) (db : DBState) : WriteCmd → DBState
  | .snap r => ⟨upsertSnapshot db.rates (toRateRow r now), db.rate_history⟩
  | .hist r => ⟨db.rates, historyInsertStep db.rate_history r now⟩

def applyCmds (now : Timestamp) (db : DBState) (cmds : List WriteCmd) : DBState :=
  cmds.foldl (applyCmd now) db

/-- The statement sequence of one `upsert_rates` call: a snapshot upsert
then a conditional history insert, for each record of the batch in order. -/
def upsertCmds : List LenderRateRecord → List WriteCmd
  | [] => []
  | r :: rest => .snap r :: .hist r :: upsertCmds rest

/-- `upsert_rates` on the committed (success) path: every statement of the
batch applied in order, all stamped with the single `now` timestamp taken
at the top of the call. -/
def upsert_rates (db : DBState) (batch : List LenderRateRecord)
    (now : Timestamp) : DBState :=
  applyCmds now db (upsertCmds batch)

/-- One `upsert_rates` call including its transaction boundary: the whole
batch runs on one connection whose context manager commits at the end or,
when the `failAt`-th statement raises, rolls back every buffered write.
Returns the database visible after the call and whether it committed. -/
def upsert_rates_call (db : DBState) (batch : List LenderRateRecord)
    (now : Timestamp) (failAt : Option ℕ) : DBState × Bool :=
  let cmds := upsertCmds batch
  match failAt with
  | some k => if k < cmds.length then (db, false) else (applyCmds now db cmds, true)
  | none => (applyCmds now db cmds, true)

/-- The `ORDER BY rate_30yr ASC` key of `get_all_rates`. -/
def byRate (x y : RateRow) : Prop := x.rate_30yr ≤ y.rate_30yr

instance : DecidableRel byRate := fun x y =>
  inferInstanceAs (Decidable (x.rate_30yr ≤ y.rate_30yr))

instance : IsTotal RateRow byRate := ⟨fun x y => le_total x.rate_30yr y.rate_30yr⟩

instance : IsTrans RateRow byRate := ⟨fun _ _ _ h h2 => le_trans h h2⟩

/-- Chronological order on timestamps (ISO strings compare this way). -/
def tsLe (a b : Timestamp) : Prop :=
  a.day < b.day ∨ (a.day = b.day ∧ a.tick ≤ b.tick)

instance (a b : Timestamp) : Decidable (tsLe a b) :=
  inferInstanceAs (Decidable (_ ∨ _))

/-- The `ORDER BY recorded_at DESC` key of `get_rate_history`. -/
def newestFirst (a b : HistoryRow) : Prop := tsLe b.recorded_at a.recorded_at

instance : DecidableRel newestFirst := fun a b =>
  inferInstanceAs (Decidable (tsLe b.recorded_at a.recorded_at))

/-- `get_all_rates`: the latest snapshot for all lenders, sorted cheapest
first (`SELECT * FROM rates ORDER BY rate_30yr ASC`). -/
def get_all_rates (db : DBState) : List RateRow :=
  List.insertionSort byRate db.rates

/-- `get_rate_history`: history rows of one lender, newest first, limited
to `days` rows. -/
def get_rate_history (db : DBState) (lender_id : String) (days : ℕ) :
    List HistoryRow :=
  (List.insertionSort newestFirst
    (db.rate_history.filter fun h => h.lender_id = lender_id)).take days

/-! ## `/api/rates/{lender_id}` endpoint (`app.py`) -/

/-- `get_lender_rate`: look up the lender's history; raise
`HTTPException(404, "Lender not found")` when it is empty, else return the
payload. -/
def get_lender_rate (db : DBState) (lender_id : String) (days : ℕ) :
    LenderRateResult :=
  if (get_rate_history db lender_id days).isEmpty then
    .error 404 "Lender not found"
  else .ok lender_id (get_rate_history db lender_id days)

/-! ## Projections used by the theorems -/

/-- All history rows of lender `lid` recorded on calendar day `d`. -/
def histFilter (hist : List HistoryRow) (lid : String) (d : ℕ) : List HistoryRow :=
  hist.filter fun h => h.lender_id = lid ∧ h.recorded_at.day = d

def histFor (db : DBState) (lid : String) (d : ℕ) : List HistoryRow :=
  histFilter db.rate_history lid d

/-- All `rates`-table rows of lender `lid`. -/
def ratesFilter (rates : List RateRow) (lid : String) : List RateRow :=
  rates.filter fun x => x.lender_id = lid

def ratesFor (db : DBState) (lid : String) : List RateRow :=
  ratesFilter db.rates lid

/-! ## Helper lemmas -/

lemma roundHalfEven_intCast (n : ℤ) : roundHalfEven (n : ℚ) = n := by
  unfold roundHalfEven
  rw [Int.fract_intCast, Int.floor_intCast]
  norm_num

lemma _round2_of_mul_eq {q : ℚ} {n : ℤ} (h : q * 100 = (n : ℚ)) :
    _round2 q = (n : ℚ) / 100 := by
  unfold _round2
  rw [h, roundHalfEven_intCast]

/-! ## Claim theorems -/

/-- C9: when the walk-state file is absent or cannot be parsed, loading the
state does not fail and returns the bootstrap defaults 30yr=6.74, 15yr=6.05,
ARM=5.98. -/
theorem C9_load_state_defaults :
    _load_state StateFile.absent = ⟨674/100, 605/100, 598/100⟩ ∧
    _load_state StateFile.corrupt = ⟨674/100, 605/100, 598/100⟩ :=
  ⟨rfl, rfl⟩

/-- C5: for any persisted walk-state file content and any random delta, the
three simulated rates stay inside their bands: 30yr in [5.50, 8.50], 15yr in
[5.00, 8.00], ARM in [4.75, 7.50]. -/
theorem C5_simulate_rates_clamped (file : StateFile) (delta_30 : ℚ) :
    11/2 ≤ (_simulate_rates file delta_30).1 ∧
    (_simulate_rates file delta_30).1 ≤ 17/2 ∧
    5 ≤ (_simulate_rates file delta_30).2.1 ∧
    (_simulate_rates file delta_30).2.1 ≤ 8 ∧
    19/4 ≤ (_simulate_rates file delta_30).2.2 ∧
    (_simulate_rates file delta_30).2.2 ≤ 15/2 := by
  unfold _simulate_rates
  refine ⟨le_max_left _ _, max_le (by norm_num) (min_le_left _ _),
    le_max_left _ _, max_le (by norm_num) (min_le_left _ _),
    le_max_left _ _, max_le (by norm_num) (min_le_left _ _)⟩

/-- C3: the external attempt succeeds only when all three series yield a
usable numeric value (a successful result is composed entirely of the three
fetched values, never a partial mix); if any series fails or returns the
placeholder `"."`, the resolver falls back to simulated rates. -/
theorem C3_all_or_nothing_external (o30 o15 oarm : FredFetchOutcome)
    (file : StateFile) (delta_30 : ℚ) :
    (∀ r30 r15 rarm, _try_fred o30 o15 oarm = some (r30, r15, rarm) →
      _fetch_fred_series o30 = some r30 ∧ _fetch_fred_series o15 = some r15 ∧
      _fetch_fred_series oarm = some rarm) ∧
    ((_fetch_fred_series o30 = none ∨ _fetch_fred_series o15 = none ∨
        _fetch_fred_series oarm = none) →
      resolveBase o30 o15 oarm file delta_30 = _simulate_rates file delta_30) ∧
    (∀ rest, _fetch_fred_series (.response (.placeholder :: rest)) = none) ∧
    _fetch_fred_series .failure = none := by
  have hnone : (_fetch_fred_series o30 = none ∨ _fetch_fred_series o15 = none ∨
      _fetch_fred_series oarm = none) → _try_fred o30 o15 oarm = none := by
    intro h
    unfold _try_fred
    rcases h with h | h | h <;> rw [h] <;>
      cases _fetch_fred_series o30 <;> cases _fetch_fred_series o15 <;>
      cases _fetch_fred_series oarm <;> simp_all
  refine ⟨?_, ?_, fun _ => rfl, rfl⟩
  · intro r30 r15 rarm h
    unfold _try_fred at h
    cases h30 : _fetch_fred_series o30 <;> cases h15 : _fetch_fred_series o15 <;>
      cases harm : _fetch_fred_series oarm <;> simp_all
  · intro h
    unfold resolveBase
    rw [hnone h]

/-- C10 (implicit): the external attempt is accepted exactly when all three
fetched values are non-`None` and nonzero; a most-recent observation of 0.0
is treated like a failed fetch and the resolver falls back to simulation. -/
theorem C10_zero_observation_rejected (o30 o15 oarm : FredFetchOutcome)
    (file : StateFile) (delta_30 : ℚ) :
    ((_try_fred o30 o15 oarm).isSome ↔
      ((∃ v, _fetch_fred_series o30 = some v ∧ v ≠ 0) ∧
       (∃ v, _fetch_fred_series o15 = some v ∧ v ≠ 0) ∧
       (∃ v, _fetch_fred_series oarm = some v ∧ v ≠ 0))) ∧
    _try_fred (.response [.num 0]) o15 oarm = none ∧
    resolveBase (.response [.num 0]) o15 oarm file delta_30 =
      _simulate_rates file delta_30 := by
  have hz : _try_fred (.response [.num 0]) o15 oarm = none := by
    unfold _try_fred
    have h0 : _fetch_fred_series (.response [.num 0]) = some 0 := rfl
    rw [h0]
    cases _fetch_fred_series o15 <;> cases _fetch_fred_series oarm <;> simp
  refine ⟨?_, hz, by unfold resolveBase; rw [hz]⟩
  unfold _try_fred
  cases h30 : _fetch_fred_series o30 <;> cases h15 : _fetch_fred_series o15 <;>
    cases harm : _fetch_fred_series oarm <;> simp_all

/-- C8: after every call of the resolver entry point, the persisted walk
state equals the three resolved base rates of that call — the external
triple when the external attempt was usable, the simulated triple otherwise
— and the built records derive from exactly those rates, so the next
simulation step loads them. -/
theorem C8_state_saved_after_resolution (o30 o15 oarm : FredFetchOutcome)
    (file : StateFile) (delta_30 : ℚ) :
    ((fetch_latest_rates o30 o15 oarm file delta_30).2.rate_30yr,
     (fetch_latest_rates o30 o15 oarm file delta_30).2.rate_15yr,
     (fetch_latest_rates o30 o15 oarm file delta_30).2.rate_arm) =
      resolveBase o30 o15 oarm file delta_30 ∧
    (fetch_latest_rates o30 o15 oarm file delta_30).1 =
      _build_lender_rates (fetch_latest_rates o30 o15 oarm file delta_30).2.rate_30yr
        (fetch_latest_rates o30 o15 oarm file delta_30).2.rate_15yr
        (fetch_latest_rates o30 o15 oarm file delta_30).2.rate_arm ∧
    (∀ r, _try_fred o30 o15 oarm = some r →
      ((fetch_latest_rates o30 o15 oarm file delta_30).2.rate_30yr,
       (fetch_latest_rates o30 o15 oarm file delta_30).2.rate_15yr,
       (fetch_latest_rates o30 o15 oarm file delta_30).2.rate_arm) = r) ∧
    (_try_fred o30 o15 oarm = none →
      ((fetch_latest_rates o30 o15 oarm file delta_30).2.rate_30yr,
       (fetch_latest_rates o30 o15 oarm file delta_30).2.rate_15yr,
       (fetch_latest_rates o30 o15 oarm file delta_30).2.rate_arm) =
        _simulate_rates file delta_30) ∧
    _load_state (StateFile.valid (fetch_latest_rates o30 o15 oarm file delta_30).2) =
      (fetch_latest_rates o30 o15 oarm file delta_30).2 := by
  refine ⟨rfl, rfl, ?_, ?_, rfl⟩
  · intro r h
    simp only [fetch_latest_rates, resolveBase, h]
  · intro h
    simp only [fetch_latest_rates, resolveBase, h]

/-- C8 witness: with every series failing and no state file, the saved walk
state is the simulated triple. -/
theorem C8_witness :
    ((fetch_latest_rates .failure .failure .failure .absent 0).2.rate_30yr,
     (fetch_latest_rates .failure .failure .failure .absent 0).2.rate_15yr,
     (fetch_latest_rates .failure .failure .failure .absent 0).2.rate_arm) =
      _simulate_rates .absent 0 :=
  (C8_state_saved_after_resolution .failure .failure .failure .absent 0).2.2.2.1 rfl

/-- C3 witness: with the 15yr series returning the `"."` placeholder, the
resolver returns the simulated rates. -/
theorem C3_witness :
    resolveBase .failure (.response [.placeholder]) .failure .absent 0 =
      _simulate_rates .absent 0 :=
  (C3_all_or_nothing_external .failure (.response [.placeholder]) .failure
    .absent 0).2.1 (Or.inl rfl)

/-- C4: the builder yields exactly one record per spread-table entry, in
spread-table insertion order, with each rate `round2(base + spread)` and
APR `round2(rate_30yr + 0.24)`; concretely, for base rates 6.74/6.05/5.98
"rocket" (spreads +0.12/+0.10/+0.08) gets 6.86/6.15/6.06 with APR 7.10. -/
theorem C4_build_lender_rates_correct (a b c : ℚ) :
    List.Forall₂ (fun (p : String × SpreadInfo) (r : LenderRateRecord) =>
        r.lender_id = p.1 ∧ r.lender_name = p.2.name ∧
        r.rate_30yr = _round2 (a + p.2.spread_30) ∧
        r.rate_15yr = _round2 (b + p.2.spread_15) ∧
        r.rate_arm_5_1 = _round2 (c + p.2.spread_arm) ∧
        r.apr_30yr = _round2 (r.rate_30yr + APR_SPREAD) ∧
        r.min_credit = p.2.min_credit ∧ r.min_down_pct = p.2.min_down)
      LENDER_SPREADS (_build_lender_rates a b c) ∧
    (_build_lender_rates (674/100) (605/100) (598/100)).head? =
      some ⟨"rocket", "Rocket Mortgage", 686/100, 615/100, 606/100, 710/100,
        580, 3⟩ := by
  constructor
  · unfold _build_lender_rates
    rw [List.forall₂_map_right_iff]
    refine List.forall₂_same.2 fun p _ => ?_
    exact ⟨rfl, rfl, rfl, rfl, rfl, rfl, rfl, rfl⟩
  · have e30 : _round2 (343/50 : ℚ) = 343/50 := by
      rw [_round2_of_mul_eq (show (343/50 : ℚ) * 100 = ((686:ℤ) : ℚ) by norm_num)]
      norm_num
    have e15 : _round2 (123/20 : ℚ) = 123/20 := by
      rw [_round2_of_mul_eq (show (123/20 : ℚ) * 100 = ((615:ℤ) : ℚ) by norm_num)]
      norm_num
    have earm : _round2 (303/50 : ℚ) = 303/50 := by
      rw [_round2_of_mul_eq (show (303/50 : ℚ) * 100 = ((606:ℤ) : ℚ) by norm_num)]
      norm_num
    have eapr : _round2 ((343/50 : ℚ) + APR_SPREAD) = 71/10 := by
      rw [_round2_of_mul_eq (show ((343/50 : ℚ) + APR_SPREAD) * 100 = ((710:ℤ) : ℚ)
        by unfold APR_SPREAD; norm_num)]
      norm_num
    unfold _build_lender_rates LENDER_SPREADS
    simp only [List.map_cons, List.head?_cons, Option.some.injEq]
    rw [LenderRateRecord.mk.injEq]
    norm_num
    exact ⟨e30, e15, earm, by rw [e30, eapr]⟩

/-- C7: building lender records from a base-rate triple, persisting them
into an empty store, and reading the latest snapshot returns exactly the
built records (all fields, timestamped with the call's `now`), sorted
ascending by `rate_30yr`. -/
theorem C7_build_persist_read_round_trip (a b c : ℚ) (t : Timestamp) :
    List.Perm (get_all_rates (upsert_rates emptyDB (_build_lender_rates a b c) t))
      ((_build_lender_rates a b c).map fun r => toRateRow r t) ∧
    List.Sorted byRate
      (get_all_rates (upsert_rates emptyDB (_build_lender_rates a b c) t)) := by
  have hr : (upsert_rates emptyDB (_build_lender_rates a b c) t).rates
      = (_build_lender_rates a b c).map (fun r => toRateRow r t) := by
    simp [upsert_rates, _build_lender_rates, LENDER_SPREADS, upsertCmds,
      applyCmds, applyCmd, upsertSnapshot, historyInsertStep, toRateRow, emptyDB]
  constructor
  · have hp := List.perm_insertionSort byRate
      (upsert_rates emptyDB (_build_lender_rates a b c) t).rates
    rw [hr] at hp
    exact hp
  · exact List.sorted_insertionSort byRate _

/-- C6: one `upsert_rates` call executes the snapshot upserts and the
conditional history inserts of the whole batch (two statements per record)
inside a single transaction: a statement failing anywhere in the batch
leaves both tables exactly as before the call, and a committed call applies
every statement. -/
theorem C6_single_transaction_rollback (db : DBState)
    (batch : List LenderRateRecord) (now : Timestamp) (k : ℕ) :
    (k < (upsertCmds batch).length →
      upsert_rates_call db batch now (some k) = (db, false)) ∧
    upsert_rates_call db batch now none = (upsert_rates db batch now, true) ∧
    (upsertCmds batch).length = 2 * batch.length := by
  refine ⟨fun hk => ?_, rfl, ?_⟩
  · simp [upsert_rates_call, hk]
  · induction batch with
    | nil => rfl
    | cons r rest ih => simp [upsertCmds, ih]; omega

/-- C6 witness: a call whose first statement fails leaves the empty store
empty and uncommitted. -/
theorem C6_witness :
    upsert_rates_call emptyDB
      [⟨"rocket", "Rocket Mortgage", 7, 6, 5, 7, 580, 3⟩] ⟨0, 0⟩ (some 0) =
      (emptyDB, false) :=
  (C6_single_transaction_rollback emptyDB
    [⟨"rocket", "Rocket Mortgage", 7, 6, 5, 7, 580, 3⟩] ⟨0, 0⟩ 0).1 (by decide)

/-- A store whose `rates` table knows lender "rocket" but whose
`rate_history` table is empty. -/
def knownLenderNoHistoryDB : DBState :=
  ⟨[⟨"rocket", "Rocket Mortgage", 7, 6, 5, 7, 580, 3, ⟨0, 0⟩⟩], []⟩

/-- C2 counterexample: on a store that knows lender "rocket" but has zero
history rows for it, the per-lender lookup returns the same
404 "Lender not found" error as for an unknown lender id — not an empty
collection — so the two cases are not distinguishable to the caller. -/
theorem C2_counterexample :
    knownLenderNoHistoryDB.rates.map (fun r => r.lender_id) = ["rocket"] ∧
    knownLenderNoHistoryDB.rate_history = [] ∧
    get_lender_rate knownLenderNoHistoryDB "rocket" 90 =
      .error 404 "Lender not found" ∧
    get_lender_rate knownLenderNoHistoryDB "rocket" 90 =
      get_lender_rate knownLenderNoHistoryDB "nosuchlender" 90 ∧
    get_lender_rate knownLenderNoHistoryDB "rocket" 90 ≠
      LenderRateResult.ok "rocket" [] := by
  refine ⟨rfl, rfl, rfl, rfl, ?_⟩
  decide

/-- C2 amended: the endpoint returns 404 "Lender not found" exactly when
the lender's history query is empty — an unknown lender id gets 404, but so
does a known lender with zero history rows; only a lender with at least one
history row gets a non-error payload. -/
theorem C2_amended_lookup_404_iff_empty_history (db : DBState)
    (lender_id : String) (days : ℕ) :
    (get_lender_rate db lender_id days = .error 404 "Lender not found" ↔
      get_rate_history db lender_id days = []) ∧
    ((∀ h ∈ db.rate_history, h.lender_id ≠ lender_id) →
      get_lender_rate db lender_id days = .error 404 "Lender not found") ∧
    (get_rate_history db lender_id days ≠ [] →
      get_lender_rate db lender_id days =
        .ok lender_id (get_rate_history db lender_id days)) := by
  have hemp : (get_rate_history db lender_id days).isEmpty = true ↔
      get_rate_history db lender_id days = [] := by
    cases get_rate_history db lender_id days <;> simp
  refine ⟨?_, ?_, ?_⟩
  · unfold get_lender_rate
    split
    · simp_all
    · simp_all
  · intro hnone
    have hfil : db.rate_history.filter
        (fun h => h.lender_id = lender_id) = [] := by
      rw [List.filter_eq_nil_iff]
      intro h hm
      simpa using hnone h hm
    simp [get_lender_rate, get_rate_history, hfil]
  · intro hne
    unfold get_lender_rate
    split
    · exact absurd (hemp.1 (by assumption)) hne
    · rfl

/-- C2 amended witness: on the empty store every lookup is a 404. -/
theorem C2_amended_witness :
    get_lender_rate emptyDB "rocket" 90 = .error 404 "Lender not found" :=
  (C2_amended_lookup_404_iff_empty_history emptyDB "rocket" 90).2.1
    (by intro h hm; simp [emptyDB] at hm)

/-! ## Lemmas for the same-day double-upsert claim -/

lemma upsert_rates_cons (db : DBState) (r : LenderRateRecord)
    (rest : List LenderRateRecord) (now : Timestamp) :
    upsert_rates db (r :: rest) now =
      upsert_rates ⟨upsertSnapshot db.rates (toRateRow r now),
        historyInsertStep db.rate_history r now⟩ rest now := rfl

lemma histFilter_insert_other (H : List HistoryRow) (r : LenderRateRecord)
    (now : Timestamp) (lid : String) (d : ℕ) (hne : r.lender_id ≠ lid) :
    histFilter (historyInsertStep H r now) lid d = histFilter H lid d := by
  unfold historyInsertStep
  split
  · rfl
  · unfold histFilter
    rw [List.filter_append]
    simp [mkHist, hne]

lemma histFilter_insert_other_day (H : List HistoryRow) (r : LenderRateRecord)
    (now : Timestamp) (lid : String) (d : ℕ) (hne : now.day ≠ d) :
    histFilter (historyInsertStep H r now) lid d = histFilter H lid d := by
  unfold historyInsertStep
  split
  · rfl
  · unfold histFilter
    rw [List.filter_append]
    simp [mkHist, hne]

lemma histInsertGuard (H : List HistoryRow) (r : LenderRateRecord)
    (now : Timestamp) :
    (H.any fun h => h.lender_id = r.lender_id ∧ h.recorded_at.day = now.day)
        = false ↔
      histFilter H r.lender_id now.day = [] := by
  rw [List.any_eq_false]
  exact List.filter_eq_nil_iff.symm

lemma histFilter_insert_first (H : List HistoryRow) (r : LenderRateRecord)
    (now : Timestamp) (h0 : histFilter H r.lender_id now.day = []) :
    histFilter (historyInsertStep H r now) r.lender_id now.day =
      [mkHist r now] := by
  have hg := (histInsertGuard H r now).2 h0
  unfold historyInsertStep
  rw [if_neg (fun hc => by rw [hg] at hc; exact Bool.noConfusion hc)]
  unfold histFilter at h0 ⊢
  rw [List.filter_append, h0]
  simp [mkHist]

lemma historyInsertStep_of_dup (H : List HistoryRow) (r : LenderRateRecord)
    (now : Timestamp) (h1 : histFilter H r.lender_id now.day ≠ []) :
    historyInsertStep H r now = H := by
  rcases Bool.eq_false_or_eq_true
      (H.any fun h => h.lender_id = r.lender_id ∧ h.recorded_at.day = now.day)
    with ht | hf
  · unfold historyInsertStep
    rw [if_pos ht]
  · exact absurd ((histInsertGuard H r now).1 hf) h1

lemma upsert_preserves_hist (lid : String) (d : ℕ) (now : Timestamp) :
    ∀ (batch : List LenderRateRecord) (db : DBState),
      histFor db lid d ≠ [] →
      histFor (upsert_rates db batch now) lid d = histFor db lid d := by
  intro batch
  induction batch with
  | nil => intro db _; rfl
  | cons b bs ih =>
      intro db h1
      rw [upsert_rates_cons]
      have hstep : histFor (⟨upsertSnapshot db.rates (toRateRow b now),
          historyInsertStep db.rate_history b now⟩ : DBState) lid d =
          histFor db lid d := by
        show histFilter (historyInsertStep db.rate_history b now) lid d =
          histFilter db.rate_history lid d
        by_cases hl : b.lender_id = lid
        · by_cases hd : now.day = d
          · subst hl
            subst hd
            rw [historyInsertStep_of_dup db.rate_history b now h1]
          · exact histFilter_insert_other_day _ _ _ _ _ hd
        · exact histFilter_insert_other _ _ _ _ _ hl
      rw [ih _ (by rw [hstep]; exact h1), hstep]

lemma upsert_hist_first_writer (lid : String) (now : Timestamp) :
    ∀ (batch : List LenderRateRecord) (db : DBState) (r1 : LenderRateRecord)
      (rest : List LenderRateRecord),
      histFor db lid now.day = [] →
      batch.filter (fun r => r.lender_id = lid) = r1 :: rest →
      histFor (upsert_rates db batch now) lid now.day = [mkHist r1 now] := by
  intro batch
  induction batch with
  | nil => intro db r1 rest _ hb; simp at hb
  | cons b bs ih =>
      intro db r1 rest h0 hb
      rw [List.filter_cons] at hb
      by_cases hl : b.lender_id = lid
      · rw [if_pos (by simp [hl])] at hb
        rw [List.cons.injEq] at hb
        obtain ⟨hb1, _⟩ := hb
        subst hb1
        have hfil : histFilter db.rate_history b.lender_id now.day = [] := by
          rw [hl]
          exact h0
        have hstep : histFor (⟨upsertSnapshot db.rates (toRateRow b now),
            historyInsertStep db.rate_history b now⟩ : DBState) lid now.day =
            [mkHist b now] := by
          show histFilter (historyInsertStep db.rate_history b now) lid now.day =
            [mkHist b now]
          rw [← hl]
          exact histFilter_insert_first db.rate_history b now hfil
        rw [upsert_rates_cons,
          upsert_preserves_hist lid now.day now bs _
            (by rw [hstep]; exact List.cons_ne_nil _ _),
          hstep]
      · rw [if_neg (by simp [hl])] at hb
        rw [upsert_rates_cons]
        have hstep : histFor (⟨upsertSnapshot db.rates (toRateRow b now),
            historyInsertStep db.rate_history b now⟩ : DBState) lid now.day =
            histFor db lid now.day := by
          show histFilter (historyInsertStep db.rate_history b now) lid now.day =
            histFilter db.rate_history lid now.day
          exact histFilter_insert_other _ _ _ _ _ hl
        exact ih _ r1 rest (hstep.trans h0) hb

lemma ratesFilter_cons (x : RateRow) (R : List RateRow) (lid : String) :
    ratesFilter (x :: R) lid =
      if x.lender_id = lid then x :: ratesFilter R lid else ratesFilter R lid := by
  simp [ratesFilter, List.filter_cons]

lemma ratesFilter_map_replace_eq (R : List RateRow) (row : RateRow) :
    ratesFilter (R.map fun x =>
        if x.lender_id = row.lender_id then mergeOnConflict x row else x)
        row.lender_id =
      (ratesFilter R row.lender_id).map fun x => mergeOnConflict x row := by
  induction R with
  | nil => rfl
  | cons x xs ih =>
      by_cases hx : x.lender_id = row.lender_id
      · have hfx : (if x.lender_id = row.lender_id then mergeOnConflict x row
            else x) = mergeOnConflict x row := if_pos hx
        rw [List.map_cons, hfx, ratesFilter_cons, ratesFilter_cons,
          if_pos (show (mergeOnConflict x row).lender_id = row.lender_id
            from hx),
          if_pos hx, List.map_cons, ih]
      · have hfx : (if x.lender_id = row.lender_id then mergeOnConflict x row
            else x) = x := if_neg hx
        rw [List.map_cons, hfx, ratesFilter_cons, ratesFilter_cons,
          if_neg hx, if_neg hx, ih]

lemma ratesFilter_map_replace_ne (R : List RateRow) (row : RateRow)
    (lid : String) (hne : row.lender_id ≠ lid) :
    ratesFilter (R.map fun x =>
        if x.lender_id = row.lender_id then mergeOnConflict x row else x)
        lid =
      ratesFilter R lid := by
  induction R with
  | nil => rfl
  | cons x xs ih =>
      by_cases hx : x.lender_id = row.lender_id
      · have hfx : (if x.lender_id = row.lender_id then mergeOnConflict x row
            else x) = mergeOnConflict x row := if_pos hx
        rw [List.map_cons, hfx, ratesFilter_cons, ratesFilter_cons,
          if_neg (show ¬ (mergeOnConflict x row).lender_id = lid
            from fun hc => hne (hx.symm.trans hc)),
          if_neg (fun hc => hne (hx.symm.trans hc)), ih]
      · have hfx : (if x.lender_id = row.lender_id then mergeOnConflict x row
            else x) = x := if_neg hx
        rw [List.map_cons, hfx, ratesFilter_cons, ratesFilter_cons, ih]

lemma upsertSnapshot_other (R : List RateRow) (row : RateRow) (lid : String)
    (hne : row.lender_id ≠ lid) :
    ratesFilter (upsertSnapshot R row) lid = ratesFilter R lid := by
  unfold upsertSnapshot
  split
  · exact ratesFilter_map_replace_ne R row lid hne
  · unfold ratesFilter
    rw [List.filter_append]
    simp [hne]

lemma upsertSnapshot_insert (R : List RateRow) (row : RateRow)
    (lid : String) (hl : row.lender_id = lid)
    (h0 : ratesFilter R lid = []) :
    ratesFilter (upsertSnapshot R row) lid = [row] := by
  subst hl
  unfold upsertSnapshot
  rcases Bool.eq_false_or_eq_true
      (R.any fun x => x.lender_id = row.lender_id) with ht | hf
  · rw [List.any_eq_true] at ht
    obtain ⟨x, hx, hpx⟩ := ht
    unfold ratesFilter at h0
    rw [List.filter_eq_nil_iff] at h0
    exact absurd hpx (h0 x hx)
  · rw [if_neg (fun hc => by rw [hf] at hc; exact Bool.noConfusion hc)]
    unfold ratesFilter at h0 ⊢
    rw [List.filter_append, h0]
    simp

lemma upsertSnapshot_conflict (R : List RateRow) (row old : RateRow)
    (lid : String) (hl : row.lender_id = lid)
    (hold : ratesFilter R lid = [old]) :
    ratesFilter (upsertSnapshot R row) lid = [mergeOnConflict old row] := by
  subst hl
  unfold upsertSnapshot
  rcases Bool.eq_false_or_eq_true
      (R.any fun x => x.lender_id = row.lender_id) with ht | hf
  · rw [if_pos ht, ratesFilter_map_replace_eq, hold]
    rfl
  · rw [List.any_eq_false] at hf
    have h0 : ratesFilter R row.lender_id = [] := by
      unfold ratesFilter
      rw [List.filter_eq_nil_iff]
      exact hf
    rw [h0] at hold
    exact List.noConfusion hold

lemma upsert_rates_no_lender (lid : String) (now : Timestamp) :
    ∀ (batch : List LenderRateRecord) (db : DBState),
      batch.filter (fun r => r.lender_id = lid) = [] →
      ratesFor (upsert_rates db batch now) lid = ratesFor db lid := by
  intro batch
  induction batch with
  | nil => intro db _; rfl
  | cons b bs ih =>
      intro db hb
      rw [List.filter_cons] at hb
      by_cases hl : b.lender_id = lid
      · rw [if_pos (by simp [hl])] at hb
        exact absurd hb (List.cons_ne_nil _ _)
      · rw [if_neg (by simp [hl])] at hb
        rw [upsert_rates_cons, ih _ hb]
        exact upsertSnapshot_other db.rates (toRateRow b now) lid hl

lemma upsert_rates_fresh_writer (lid : String) (now : Timestamp) :
    ∀ (batch : List LenderRateRecord) (db : DBState) (r2 : LenderRateRecord),
      ratesFor db lid = [] →
      batch.filter (fun r => r.lender_id = lid) = [r2] →
      ratesFor (upsert_rates db batch now) lid = [toRateRow r2 now] := by
  intro batch
  induction batch with
  | nil => intro db r2 _ hb; simp at hb
  | cons b bs ih =>
      intro db r2 h0 hb
      rw [List.filter_cons] at hb
      rw [upsert_rates_cons]
      by_cases hl : b.lender_id = lid
      · rw [if_pos (by simp [hl])] at hb
        rw [List.cons.injEq] at hb
        obtain ⟨hb1, hb2⟩ := hb
        subst hb1
        have hstep : ratesFor (⟨upsertSnapshot db.rates (toRateRow b now),
            historyInsertStep db.rate_history b now⟩ : DBState) lid =
            [toRateRow b now] :=
          upsertSnapshot_insert db.rates (toRateRow b now) lid hl h0
        rw [upsert_rates_no_lender lid now bs _ hb2, hstep]
      · rw [if_neg (by simp [hl])] at hb
        have hstep : ratesFor (⟨upsertSnapshot db.rates (toRateRow b now),
            historyInsertStep db.rate_history b now⟩ : DBState) lid =
            ratesFor db lid :=
          upsertSnapshot_other db.rates (toRateRow b now) lid hl
        exact ih _ r2 (hstep.trans h0) hb

lemma upsert_rates_conflict_writer (lid : String) (now : Timestamp) :
    ∀ (batch : List LenderRateRecord) (db : DBState) (old : RateRow)
      (r2 : LenderRateRecord),
      ratesFor db lid = [old] →
      batch.filter (fun r => r.lender_id = lid) = [r2] →
      ratesFor (upsert_rates db batch now) lid =
        [mergeOnConflict old (toRateRow r2 now)] := by
  intro batch
  induction batch with
  | nil => intro db old r2 _ hb; simp at hb
  | cons b bs ih =>
      intro db old r2 hold hb
      rw [List.filter_cons] at hb
      rw [upsert_rates_cons]
      by_cases hl : b.lender_id = lid
      · rw [if_pos (by simp [hl])] at hb
        rw [List.cons.injEq] at hb
        obtain ⟨hb1, hb2⟩ := hb
        subst hb1
        have hstep : ratesFor (⟨upsertSnapshot db.rates (toRateRow b now),
            historyInsertStep db.rate_history b now⟩ : DBState) lid =
            [mergeOnConflict old (toRateRow b now)] :=
          upsertSnapshot_conflict db.rates (toRateRow b now) old lid hl hold
        rw [upsert_rates_no_lender lid now bs _ hb2, hstep]
      · rw [if_neg (by simp [hl])] at hb
        have hstep : ratesFor (⟨upsertSnapshot db.rates (toRateRow b now),
            historyInsertStep db.rate_history b now⟩ : DBState) lid =
            ratesFor db lid :=
          upsertSnapshot_other db.rates (toRateRow b now) lid hl
        exact ih _ old r2 (hstep.trans hold) hb

/-- C1 counterexample: two concrete same-day `upsert_rates` calls whose
records for lender "rocket" carry different `lender_name`s. History keeps
exactly the first call's row, but the resulting `rates` row is NOT the
second call's record: its `lender_name` is still the first call's
("Rocket Mortgage", not "Rocket Refi"), because the `ON CONFLICT DO UPDATE`
SET list omits `lender_name`; only the rate, APR, credit, down-payment and
timestamp columns come from the second call. -/
theorem C1_counterexample :
    histFor (upsert_rates
        (upsert_rates emptyDB
          [⟨"rocket", "Rocket Mortgage", 7, 6, 5, 7, 580, 3⟩] ⟨0, 1⟩)
        [⟨"rocket", "Rocket Refi", 8, 7, 6, 8, 600, 5⟩] ⟨0, 2⟩)
      "rocket" 0 =
      [mkHist ⟨"rocket", "Rocket Mortgage", 7, 6, 5, 7, 580, 3⟩ ⟨0, 1⟩] ∧
    ratesFor (upsert_rates
        (upsert_rates emptyDB
          [⟨"rocket", "Rocket Mortgage", 7, 6, 5, 7, 580, 3⟩] ⟨0, 1⟩)
        [⟨"rocket", "Rocket Refi", 8, 7, 6, 8, 600, 5⟩] ⟨0, 2⟩)
      "rocket" ≠
      [toRateRow ⟨"rocket", "Rocket Refi", 8, 7, 6, 8, 600, 5⟩ ⟨0, 2⟩] ∧
    ratesFor (upsert_rates
        (upsert_rates emptyDB
          [⟨"rocket", "Rocket Mortgage", 7, 6, 5, 7, 580, 3⟩] ⟨0, 1⟩)
        [⟨"rocket", "Rocket Refi", 8, 7, 6, 8, 600, 5⟩] ⟨0, 2⟩)
      "rocket" =
      [⟨"rocket", "Rocket Mortgage", 8, 7, 6, 8, 600, 5, ⟨0, 2⟩⟩] := by
  decide

/-- C1 (amended): two `upsert_rates` calls on the same calendar day, each
carrying one record for lender `lid`, into a store with no latest row and
no same-day history row for the lender, leave exactly one history row for
that (lender, day) — the first call's rates at the first call's timestamp
(first-writer-wins) — while the `rates` ("latest") row carries the second
call's rate, APR, credit and down-payment values and timestamp but keeps
the first call's `lender_name`, which the `ON CONFLICT DO UPDATE` SET list
omits. -/
theorem C1_same_day_double_upsert (db0 : DBState)
    (B1 B2 : List LenderRateRecord) (t1 t2 : Timestamp) (lid : String)
    (r1 r2 : LenderRateRecord)
    (hday : t2.day = t1.day)
    (hh : histFor db0 lid t1.day = [])
    (hr0 : ratesFor db0 lid = [])
    (hb1 : B1.filter (fun r => r.lender_id = lid) = [r1])
    (hb2 : B2.filter (fun r => r.lender_id = lid) = [r2]) :
    histFor (upsert_rates (upsert_rates db0 B1 t1) B2 t2) lid t1.day =
      [mkHist r1 t1] ∧
    ratesFor (upsert_rates (upsert_rates db0 B1 t1) B2 t2) lid =
      [⟨r1.lender_id, r1.lender_name, r2.rate_30yr, r2.rate_15yr,
        r2.rate_arm_5_1, r2.apr_30yr, r2.min_credit, r2.min_down_pct,
        t2⟩] := by
  have h1 : histFor (upsert_rates db0 B1 t1) lid t1.day = [mkHist r1 t1] :=
    upsert_hist_first_writer lid t1 B1 db0 r1 [] hh hb1
  constructor
  · rw [upsert_preserves_hist lid t1.day t2 B2 _
      (by rw [h1]; exact List.cons_ne_nil _ _), h1]
  · have hq1 : ratesFor (upsert_rates db0 B1 t1) lid = [toRateRow r1 t1] :=
      upsert_rates_fresh_writer lid t1 B1 db0 r1 hr0 hb1
    exact upsert_rates_conflict_writer lid t2 B2 _ (toRateRow r1 t1) r2
      hq1 hb2

/-- C1 witness: two concrete same-day calls for lender "rocket". -/
theorem C1_witness :
    histFor (upsert_rates
        (upsert_rates emptyDB
          [⟨"rocket", "Rocket Mortgage", 7, 6, 5, 7, 580, 3⟩] ⟨0, 1⟩)
        [⟨"rocket", "Rocket Mortgage", 8, 7, 6, 8, 580, 3⟩] ⟨0, 2⟩)
      "rocket" 0 =
      [mkHist ⟨"rocket", "Rocket Mortgage", 7, 6, 5, 7, 580, 3⟩ ⟨0, 1⟩] ∧
    ratesFor (upsert_rates
        (upsert_rates emptyDB
          [⟨"rocket", "Rocket Mortgage", 7, 6, 5, 7, 580, 3⟩] ⟨0, 1⟩)
        [⟨"rocket", "Rocket Mortgage", 8, 7, 6, 8, 580, 3⟩] ⟨0, 2⟩)
      "rocket" =
      [⟨"rocket", "Rocket Mortgage", 8, 7, 6, 8, 580, 3, ⟨0, 2⟩⟩] :=
  C1_same_day_double_upsert emptyDB
    [⟨"rocket", "Rocket Mortgage", 7, 6, 5, 7, 580, 3⟩]
    [⟨"rocket", "Rocket Mortgage", 8, 7, 6, 8, 580, 3⟩]
    ⟨0, 1⟩ ⟨0, 2⟩ "rocket"
    ⟨"rocket", "Rocket Mortgage", 7, 6, 5, 7, 580, 3⟩
    ⟨"rocket", "Rocket Mortgage", 8, 7, 6, 8, 580, 3⟩
    rfl rfl rfl (by decide) (by decide)
